import Mathlib

/-!
Shallow embedding of the reconciliation and double-entry consistency engine
of the ma-analysis bookkeeping application (src/App.tsx, src/types.ts).

Monetary amounts are modelled as rationals; the source compares totals via
fixed two-decimal rounding (toFixed(2)), modelled here by rounding
100 * x to the nearest integer.  Identifier generation (crypto.randomUUID,
Date.now) is modelled by a counter threaded through the state.
-/

namespace MaAnalysis

/-- Monetary amounts (JavaScript numbers carrying currency values). -/
abbrev Amount := ℚ

/-- The debit/credit tag of a bank-statement transaction. -/
inductive TxType where
  | debit
  | credit
deriving Repr, DecidableEq

/-- Rendering of a TxType into the string used by the source code. -/
def TxType.str : TxType → String
  | .debit => "debit"
  | .credit => "credit"

/-- Reconciliation status of a statement transaction. -/
inductive ReconStatus where
  | posted
  | unposted
deriving Repr, DecidableEq

/-- Chart-of-accounts record (types.ts: Account). -/
structure Account where
  id : String
  code : String
  name : String
  type : String
  isBankAccount : Bool := false
deriving Repr, DecidableEq

/-- Bank-statement line item (types.ts: Transaction). -/
structure Transaction where
  id : String
  date : String
  description : String
  amount : Amount
  type : TxType
  reconciliationStatus : ReconStatus
  notes : Option String := none
deriving Repr, DecidableEq

/-- A single journal line (types.ts: JournalLine). -/
structure JournalLine where
  id : String
  accountId : String
  debit : Amount
  credit : Amount
deriving Repr, DecidableEq

/-- A journal entry (types.ts: JournalEntry). -/
structure JournalEntry where
  id : String
  date : String
  description : String
  refNo : String := ""
  lines : List JournalLine
deriving Repr, DecidableEq

/-- Reconciliation link record (types.ts: ReconciledTransaction).  Its id is
the id of the linked statement transaction. -/
structure ReconciledTransaction where
  id : String
  period : String
  bankAccountId : String
  journalEntryId : String
  originalDate : String
  originalDescription : String
  originalAmount : Amount
  originalType : TxType
deriving Repr, DecidableEq

/-- App.tsx: UNCATEGORIZED_CODE, the reserved suspense account code. -/
def UNCATEGORIZED_CODE : String := "0000"

/-- App.tsx: DEFAULT_ACCOUNTS. -/
def DEFAULT_ACCOUNTS : List Account :=
  [ { id := "acc-0", code := UNCATEGORIZED_CODE, name := "Uncategorized Transactions", type := "Suspense" },
    { id := "acc-1", code := "1010", name := "Primary Bank Account", type := "Asset", isBankAccount := true },
    { id := "acc-2", code := "4000", name := "Sales Revenue", type := "Revenue" },
    { id := "acc-3", code := "5000", name := "Cost of Goods Sold", type := "Expense" },
    { id := "acc-4", code := "6010", name := "Office Supplies", type := "Expense" },
    { id := "acc-5", code := "6020", name := "Rent Expense", type := "Expense" },
    { id := "acc-6", code := "6030", name := "Utilities", type := "Expense" },
    { id := "acc-7", code := "2000", name := "Accounts Payable", type := "Liability" },
    { id := "acc-8", code := "3000", name := "Owner\x27s Equity", type := "Equity" } ]

/-- Generated identifier number n (models generateUUID / crypto.randomUUID,
made deterministic by threading a counter). -/
def uuid (n : ℕ) : String := "uuid-" ++ toString n

/-- Models the JavaScript number-to-string coercion used in template
literals.  The exact digit rendering is immaterial to every property proved
here; what matters is that the rendering is a function of the numeric
value. -/
def numToString (q : Amount) : String :=
  if q.den = 1 then toString q.num else toString q.num ++ "/" ++ toString q.den

/-- Executable model of the JavaScript String.prototype.trim: drop leading
and trailing whitespace. -/
def jsTrim (s : String) : String :=
  String.mk
    (((s.toList.dropWhile Char.isWhitespace).reverse.dropWhile Char.isWhitespace).reverse)

/-- Per-entry totals (App.tsx lines 615-620 and 942-948): a fold adding each
line to the running debit/credit pair.  Number(line.debit || 0) is the
identity on rational amounts, since replacing 0 by 0 changes nothing. -/
def computeTotals (lines : List JournalLine) : Amount × Amount :=
  lines.foldl (fun acc line => (acc.1 + line.debit, acc.2 + line.credit)) (0, 0)

/-- Rounding to two decimal places, as an integer count of hundredths (the
fixed-point model of toFixed(2) comparison). -/
def round2 (q : Amount) : ℤ := ⌊q * 100 + 1 / 2⌋

/-- App.tsx line 622 / line 950:
isBalanced = totals.debit.toFixed(2) === totals.credit.toFixed(2) && totals.debit > 0. -/
def isBalanced (e : JournalEntry) : Bool :=
  (round2 (computeTotals e.lines).1 == round2 (computeTotals e.lines).2)
    && decide (0 < (computeTotals e.lines).1)

namespace JournalEntryModal

/-- App.tsx lines 624-634: the manual journal-entry builder save handler.
Returns the entry handed to onSave, or none when validation rejects it. -/
def handleSave (entry : JournalEntry) : Option JournalEntry :=
  if !isBalanced entry then none
  else if entry.lines.any (fun l => decide (l.accountId = "")) then none
  else some entry

end JournalEntryModal

namespace AiJournalEntryModal

/-- App.tsx lines 952-956: the AI journal builder save handler (entry is
null until a suggestion arrives). -/
def handleSave (entry : Option JournalEntry) : Option JournalEntry :=
  match entry with
  | none => none
  | some e =>
    if !isBalanced e then none
    else if e.lines.any (fun l => decide (l.accountId = "")) then none
    else some e

end AiJournalEntryModal

/-- A field update issued to a journal line by the line editor. -/
inductive LineFieldUpdate where
  | accountId (v : String)
  | debit (v : Amount)
  | credit (v : Amount)
deriving Repr, DecidableEq

/-- App.tsx lines 594-598 (and identically 933-937): build the updated line;
setting debit to a positive value zeroes credit and vice versa. -/
def applyLineUpdate (line : JournalLine) (u : LineFieldUpdate) : JournalLine :=
  match u with
  | .accountId v => { line with accountId := v }
  | .debit v =>
    let updatedLine := { line with debit := v }
    if 0 < v then { updatedLine with credit := 0 } else updatedLine
  | .credit v =>
    let updatedLine := { line with credit := v }
    if 0 < v then { updatedLine with debit := 0 } else updatedLine

/-- App.tsx lines 590-601 / 928-940: handleUpdateLine maps the update over
the entry, touching only the line with the given id. -/
def handleUpdateLine (e : JournalEntry) (lineId : String) (u : LineFieldUpdate) : JournalEntry :=
  { e with lines := e.lines.map (fun line =>
      if !decide (line.id = lineId) then line else applyLineUpdate line u) }

/-- A journal line as it appears in the parsed AI suggestion payload
(untrusted JSON: debit/credit may be absent or null). -/
structure RawAiLine where
  accountId : String
  debit : Option Amount
  credit : Option Amount
deriving Repr, DecidableEq

/-- App.tsx lines 570-575 (and 907-912): a suggested line is mapped with
debit = Number(line.debit || 0) and credit = Number(line.credit || 0); a
missing amount becomes 0, and nothing forces debit/credit exclusivity. -/
def aiMapLine (lineId : String) (l : RawAiLine) : JournalLine :=
  { id := lineId, accountId := l.accountId,
    debit := l.debit.getD 0, credit := l.credit.getD 0 }

/-- The parsed AI suggestion payload for a journal entry. -/
structure RawAiEntry where
  date : Option String
  description : Option String
  lines : List RawAiLine
deriving Repr, DecidableEq

/-- App.tsx lines 561-576: handleGenerateFromMemo validates the AI result
(date, description and a nonempty lines array must be present) and replaces
the entry date, narration and lines with the mapped suggestion. -/
def applyAiMemoResult (prev : JournalEntry) (aiResult : RawAiEntry) (c : ℕ) :
    Option JournalEntry :=
  match aiResult.date, aiResult.description with
  | some date, some description =>
    if date = "" ∨ description = "" ∨ aiResult.lines = [] then none
    else some { prev with
      date := date,
      description := description,
      lines := aiResult.lines.enum.map (fun p => aiMapLine (uuid (c + p.1)) p.2) }
  | _, _ => none

/-! ## Statement processing (App.tsx: processAndSetTransactions) -/

/-- A raw transaction row as produced by the extraction collaborator
(spec section 6 contract: date, description, debit and credit, each
possibly null). -/
structure RawTx where
  date : Option String
  description : Option String
  debit : Option Amount
  credit : Option Amount
deriving Repr, DecidableEq

/-- JavaScript truthiness of an optional numeric field: null/undefined and 0
are falsy. -/
def truthyNum (o : Option Amount) : Bool :=
  match o with
  | none => false
  | some x => decide (x ≠ 0)

/-- JavaScript truthiness of an optional string field: null/undefined and
the empty string are falsy. -/
def truthyStr (o : Option String) : Bool :=
  match o with
  | none => false
  | some s => decide (s ≠ "")

/-- The regular-expression test on App.tsx line 1167: the date string starts
with four digits, a hyphen, two digits, a hyphen and two digits. -/
def matchesIsoDate (s : String) : Bool :=
  match s.toList with
  | c0 :: c1 :: c2 :: c3 :: c4 :: c5 :: c6 :: c7 :: c8 :: c9 :: _ =>
    c0.isDigit && c1.isDigit && c2.isDigit && c3.isDigit && decide (c4 = '-')
      && c5.isDigit && c6.isDigit && decide (c7 = '-') && c8.isDigit && c9.isDigit
  | _ => false

/-- App.tsx lines 1159-1163: amount is the absolute value of debit, else
credit, else 0 (JavaScript || skips falsy values, so an explicit 0 debit
falls through to the credit). -/
def sanitizeAmount (r : RawTx) : Amount :=
  |if truthyNum r.debit then r.debit.getD 0
   else if truthyNum r.credit then r.credit.getD 0
   else 0|

/-- App.tsx line 1163: the row is a debit iff its debit field is truthy and
the sanitized amount is positive; every other row is a credit. -/
def sanitizeType (r : RawTx) : TxType :=
  if truthyNum r.debit && decide (0 < sanitizeAmount r) then .debit else .credit

/-- App.tsx lines 1166-1177: a date already in ISO shape is kept; any other
truthy date string goes through the JavaScript Date parser (modelled by the
jsDateToIso argument, none meaning the parse throws) with the current day as
fallback; a falsy date becomes the current day. -/
def sanitizeDate (jsDateToIso : String → Option String) (today : String)
    (d : Option String) : String :=
  match d with
  | some s =>
    if s ≠ "" ∧ matchesIsoDate s then s
    else if s ≠ "" then (jsDateToIso s).getD today
    else today
  | none => today

/-- App.tsx lines 1180-1192: a string description is trimmed; a null or
missing one becomes the placeholder.  (Non-string JSON payloads, which the
source stringifies, are outside the extraction contract modelled here.) -/
def sanitizeDescription (d : Option String) : String :=
  match d with
  | some s => jsTrim s
  | none => "N/A"

/-- App.tsx lines 1158-1205: sanitize one parsed row into a statement
transaction.  The id is the content-derived composite key of line 1194 and
the status is posted exactly when a reconciliation link with that id already
exists. -/
def sanitizeRawTx (jsDateToIso : String → Option String) (today : String)
    (reconciledIds : List String) (r : RawTx) : Transaction :=
  let amount := sanitizeAmount r
  let type := sanitizeType r
  let date := sanitizeDate jsDateToIso today r.date
  let description := sanitizeDescription r.description
  let id := date ++ "-" ++ description ++ "-" ++ numToString amount ++ "-" ++ type.str
  { id := id, date := date, description := description, amount := amount,
    type := type,
    reconciliationStatus := if reconciledIds.contains id then .posted else .unposted }

/-! ## Account import (App.tsx: ChartOfAccountsModal.parseAndImportData) -/

/-- A spreadsheet / paste cell: the source receives string or number
cells. -/
inductive Cell where
  | str (s : String)
  | num (n : Amount)
deriving Repr, DecidableEq

/-- JavaScript truthiness of a cell ("" and 0 are falsy). -/
def Cell.truthy : Cell → Bool
  | .str s => decide (s ≠ "")
  | .num n => decide (n ≠ 0)

/-- The String(cell) coercion. -/
def Cell.toStr : Cell → String
  | .str s => s
  | .num n => numToString n

/-- An absent cell (indexing past the end of a row yields undefined, which
is falsy); modelled as the empty string, which is equally falsy. -/
def cellAt (row : List Cell) (i : ℕ) : Cell := row.getD i (.str "")

/-- The row filter of App.tsx line 327: at least three cells, each of the
first three truthy (a missing code, name or type drops the row). -/
def wellFormedRow (row : List Cell) : Bool :=
  decide (row.length ≥ 3) && (cellAt row 0).truthy
    && (cellAt row 1).truthy && (cellAt row 2).truthy

/-- App.tsx lines 326-337: keep only rows with at least three truthy cells,
map them to account records, drop those whose code is already present among
the existing accounts, and append the rest.  Returns the new directory and
the number of accounts imported. -/
def parseAndImportData (accounts : List Account) (now : ℕ)
    (data : List (List Cell)) : List Account × ℕ :=
  let importedAccounts : List Account :=
    ((data.filter wellFormedRow).enum).map
      (fun p =>
        { id := "imported-" ++ toString now ++ "-" ++ toString p.1,
          code := jsTrim (cellAt p.2 0).toStr,
          name := jsTrim (cellAt p.2 1).toStr,
          type := jsTrim (cellAt p.2 2).toStr })
  let uniqueImported := importedAccounts.filter
    (fun imp => !accounts.any (fun exist => decide (exist.code = imp.code)))
  (accounts ++ uniqueImported, uniqueImported.length)

/-! ## Application state and the reconciliation operations -/

/-- The core mutable state of the App component (App.tsx lines 1026-1044),
restricted to the collections the reconciliation engine touches.  uuidCounter
makes identifier generation deterministic. -/
structure AppState where
  accounts : List Account
  journalEntries : List JournalEntry
  reconciledTransactions : List ReconciledTransaction
  statementTransactions : List Transaction
  selectedTx : List String
  selectedBankAccountId : String
  activePeriod : String
  errorMsg : Option String := none
  uuidCounter : ℕ := 0
deriving Repr, DecidableEq

/-- The reconciliation link built from a linked transaction and a journal
entry id (App.tsx lines 1383-1392 and 1409-1418 and 1478-1487). -/
def mkRecon (period bankAccountId : String) (tx : Transaction)
    (journalEntryId : String) : ReconciledTransaction :=
  { id := tx.id, period := period, bankAccountId := bankAccountId,
    journalEntryId := journalEntryId, originalDate := tx.date,
    originalDescription := tx.description, originalAmount := tx.amount,
    originalType := tx.type }

/-- App.tsx lines 1376-1404: handleSaveJournal.  An entry whose id already
exists is replaced in place (edit); otherwise the entry is appended and, when
a linked transaction is attached and no link with its id exists yet, a link
is created and the transaction is flipped to posted. -/
def handleSaveJournal (s : AppState) (entry : JournalEntry)
    (journalLinkedTx : Option Transaction) : AppState :=
  let isEditing := s.journalEntries.any (fun je => decide (je.id = entry.id))
  if isEditing then
    { s with journalEntries :=
        s.journalEntries.map (fun je => if decide (je.id = entry.id) then entry else je) }
  else
    let s1 := { s with journalEntries := s.journalEntries ++ [entry] }
    match journalLinkedTx with
    | some tx =>
      if !s.reconciledTransactions.any (fun rt => decide (rt.id = tx.id)) then
        { s1 with
          reconciledTransactions := s.reconciledTransactions
            ++ [mkRecon s.activePeriod s.selectedBankAccountId tx entry.id],
          statementTransactions := s.statementTransactions.map (fun st =>
            if decide (st.id = tx.id) then { st with reconciliationStatus := .posted }
            else st) }
      else s1
    | none => s1

/-- App.tsx lines 1406-1428: handleSaveAiJournal appends the entry, creates
one link per source transaction with no already-linked check, flips every
source transaction id to posted, and clears the selection. -/
def handleSaveAiJournal (s : AppState) (entry : JournalEntry)
    (sourceTxs : List Transaction) : AppState :=
  let newReconciledTxs := sourceTxs.map
    (fun tx => mkRecon s.activePeriod s.selectedBankAccountId tx entry.id)
  let postedIds := sourceTxs.map (fun tx => tx.id)
  { s with
    journalEntries := s.journalEntries ++ [entry],
    reconciledTransactions := s.reconciledTransactions ++ newReconciledTxs,
    statementTransactions := s.statementTransactions.map (fun st =>
      if postedIds.contains st.id then { st with reconciliationStatus := .posted }
      else st),
    selectedTx := [] }

/-- App.tsx lines 1430-1450: handleDeleteJournal.  When the user confirms,
the entry is removed, every link referencing it is removed, and every
formerly linked transaction id is flipped back to unposted. -/
def handleDeleteJournal (s : AppState) (confirmed : Bool) (id : String) : AppState :=
  if confirmed then
    let linkedReconTxs := s.reconciledTransactions.filter
      (fun rt => decide (rt.journalEntryId = id))
    let s1 := { s with journalEntries :=
        s.journalEntries.filter (fun je => !decide (je.id = id)) }
    if 0 < linkedReconTxs.length then
      let idsToUnpost := linkedReconTxs.map (fun rt => rt.id)
      { s1 with
        reconciledTransactions := s.reconciledTransactions.filter
          (fun rt => !decide (rt.journalEntryId = id)),
        statementTransactions := s.statementTransactions.map (fun st =>
          if idsToUnpost.contains st.id then { st with reconciliationStatus := .unposted }
          else st) }
    else s1
  else s

/-- The two-line entry synthesized for one bulk-posted transaction
(App.tsx lines 1467-1475): a bank line signed to the transaction and a
suspense offset line.  c is the identifier counter at this iteration. -/
def mkBulkJournal (bankAccountId suspenseId : String) (c : ℕ)
    (tx : Transaction) : JournalEntry :=
  { id := uuid c, date := tx.date, description := tx.description,
    lines := [
      { id := uuid (c + 1), accountId := bankAccountId,
        debit := if tx.type = .credit then tx.amount else 0,
        credit := if tx.type = .debit then tx.amount else 0 },
      { id := uuid (c + 2), accountId := suspenseId,
        debit := if tx.type = .debit then tx.amount else 0,
        credit := if tx.type = .credit then tx.amount else 0 } ] }

/-- The forEach loop of App.tsx lines 1464-1489: walk the transactions in
order, skip the ones whose status is posted, and push a synthesized entry
and a link for each of the others, consuming three generated ids each. -/
def bulkLoop (bankAccountId suspenseId period : String) :
    List Transaction → ℕ → List JournalEntry × List ReconciledTransaction × ℕ
  | [], c => ([], [], c)
  | tx :: rest, c =>
    if tx.reconciliationStatus = .posted then
      bulkLoop bankAccountId suspenseId period rest c
    else
      let newJournal := mkBulkJournal bankAccountId suspenseId c tx
      let newRecon := mkRecon period bankAccountId tx newJournal.id
      let r := bulkLoop bankAccountId suspenseId period rest (c + 3)
      (newJournal :: r.1, newRecon :: r.2.1, r.2.2)

/-- App.tsx lines 1452-1500: handlePostToCashbook.  Nothing happens without
transactions and a selected bank account; a missing suspense account reports
an error and changes nothing else; otherwise each not-yet-posted transaction
gets a synthesized entry plus a link, the posted ids are flipped, and the
selection is cleared. -/
def handlePostToCashbook (s : AppState) (txsToPost : List Transaction) : AppState :=
  if txsToPost.length = 0 ∨ s.selectedBankAccountId = "" then s
  else
    match s.accounts.find? (fun a => decide (a.code = UNCATEGORIZED_CODE)) with
    | none => { s with errorMsg := some "Uncategorized suspense account not found!" }
    | some uncategorizedAccount =>
      let r := bulkLoop s.selectedBankAccountId uncategorizedAccount.id
        s.activePeriod txsToPost s.uuidCounter
      let postedIds := r.2.1.map (fun rt => rt.id)
      { s with
        journalEntries := s.journalEntries ++ r.1,
        reconciledTransactions := s.reconciledTransactions ++ r.2.1,
        statementTransactions := s.statementTransactions.map (fun st =>
          if postedIds.contains st.id then { st with reconciliationStatus := .posted }
          else st),
        selectedTx := [],
        uuidCounter := r.2.2 }

/-- App.tsx lines 1155-1210: processAndSetTransactions replaces the
statement with the sanitized rows; each row is posted exactly when a link
with its content-derived id already exists.  The trailing
filter(tx => !isNaN(tx.amount)) of the source keeps every row here, because
in the rational model of the extraction contract an amount is never NaN. -/
def processAndSetTransactions (s : AppState) (jsDateToIso : String → Option String)
    (today : String) (parsedTxs : List RawTx) : AppState :=
  let reconciledIds := s.reconciledTransactions.map (fun rt => rt.id)
  { s with statementTransactions :=
      parsedTxs.map (sanitizeRawTx jsDateToIso today reconciledIds) }

/-- App.tsx lines 1309-1319: toggle one transaction id in the selection. -/
def handleSelectTx (s : AppState) (id : String) : AppState :=
  if s.selectedTx.contains id then
    { s with selectedTx := s.selectedTx.filter (fun x => !decide (x = id)) }
  else
    { s with selectedTx := s.selectedTx ++ [id] }

/-! ## The event-step relation

One step per UI event handler that can mutate the reconciliation state, with
the guards the interface enforces at the call site: the row checkbox is
disabled for posted transactions, file upload requires a selected bank
account, the AI-journalize and bulk-post buttons require a nonempty
selection, both modal save buttons run the balance/account validation, and
created entries carry a fresh generated id. -/

/-- The state at application start (App.tsx lines 1026-1044), in a session
whose current month is 2024-07. -/
def initialState : AppState :=
  { accounts := DEFAULT_ACCOUNTS, journalEntries := [],
    reconciledTransactions := [], statementTransactions := [],
    selectedTx := [], selectedBankAccountId := "", activePeriod := "2024-07",
    errorMsg := none, uuidCounter := 0 }

/-- One UI event. -/
inductive Step : AppState → AppState → Prop where
  | selectBank (s : AppState) (id : String)
      (h : id = "" ∨ ∃ a ∈ s.accounts, a.id = id ∧ a.isBankAccount = true) :
      Step s { s with selectedBankAccountId := id }
  | processTxs (s : AppState) (jsDateToIso : String → Option String)
      (today : String) (parsedTxs : List RawTx)
      (hbank : s.selectedBankAccountId ≠ "") :
      Step s (processAndSetTransactions s jsDateToIso today parsedTxs)
  | selectTx (s : AppState) (id : String)
      (h : ∃ tx ∈ s.statementTransactions,
        tx.id = id ∧ tx.reconciliationStatus ≠ .posted) :
      Step s (handleSelectTx s id)
  | saveJournalNew (s : AppState) (entry : JournalEntry) (tx : Transaction)
      (hval : JournalEntryModal.handleSave entry = some entry)
      (htx : tx ∈ s.statementTransactions)
      (hun : tx.reconciliationStatus ≠ .posted)
      (hfresh : ∀ je ∈ s.journalEntries, je.id ≠ entry.id) :
      Step s (handleSaveJournal s entry (some tx))
  | saveJournalBlank (s : AppState) (entry : JournalEntry)
      (hval : JournalEntryModal.handleSave entry = some entry)
      (hfresh : ∀ je ∈ s.journalEntries, je.id ≠ entry.id) :
      Step s (handleSaveJournal s entry none)
  | saveJournalEdit (s : AppState) (entry : JournalEntry)
      (hval : JournalEntryModal.handleSave entry = some entry)
      (hold : ∃ je ∈ s.journalEntries, je.id = entry.id) :
      Step s (handleSaveJournal s entry none)
  | aiSave (s : AppState) (entry : JournalEntry)
      (hsel : s.selectedTx ≠ [])
      (hbank : s.selectedBankAccountId ≠ "")
      (hval : AiJournalEntryModal.handleSave (some entry) = some entry)
      (hfresh : ∀ je ∈ s.journalEntries, je.id ≠ entry.id) :
      Step s (handleSaveAiJournal s entry
        (s.statementTransactions.filter (fun tx => s.selectedTx.contains tx.id)))
  | bulkPost (s : AppState)
      (hsel : s.selectedTx ≠ []) :
      Step s (handlePostToCashbook s
        (s.statementTransactions.filter (fun tx => s.selectedTx.contains tx.id)))
  | deleteJournal (s : AppState) (id : String)
      (hold : ∃ je ∈ s.journalEntries, je.id = id) :
      Step s (handleDeleteJournal s true id)

/-- A state the application can be in after any sequence of events. -/
def Reachable (s : AppState) : Prop :=
  Relation.ReflTransGen Step initialState s

/-- The number of active links recorded for a transaction id. -/
def linkCount (s : AppState) (tid : String) : ℕ :=
  (s.reconciledTransactions.filter (fun rt => decide (rt.id = tid))).length

/-- Status agreement: a statement transaction is posted exactly when a link
with its id exists. -/
def statusAgrees (s : AppState) : Prop :=
  ∀ tx ∈ s.statementTransactions,
    (tx.reconciliationStatus = .posted ↔
      ∃ rt ∈ s.reconciledTransactions, rt.id = tx.id)

/-- Link cardinality: every transaction id has at most one active link. -/
def linkCardOk (s : AppState) : Prop :=
  ∀ tid, linkCount s tid ≤ 1

/-! ## A concrete run: a statement containing the same row twice

The extraction collaborator returns the same parsed row twice (a genuinely
duplicated bank line, or the same line extracted twice); both copies
sanitize to the same content-derived id.  Selecting that id and bulk
posting creates one entry and one link per row, so the id ends up with two
active links; deleting the first of those entries then flips the rows to
unposted while the second link is still present. -/

def ceRawTx : RawTx :=
  { date := some "2024-01-05", description := some "Lunch", debit := none,
    credit := some 100 }

def ceLunchId : String := "2024-01-05-Lunch-100-credit"

def ceS1 : AppState := { initialState with selectedBankAccountId := "acc-1" }

def ceS2 : AppState :=
  processAndSetTransactions ceS1 (fun _ => none) "2024-07-15" [ceRawTx, ceRawTx]

def ceS3 : AppState := handleSelectTx ceS2 ceLunchId

def ceS4 : AppState :=
  handlePostToCashbook ceS3
    (ceS3.statementTransactions.filter (fun tx => ceS3.selectedTx.contains tx.id))

def ceS5 : AppState := handleDeleteJournal ceS4 true "uuid-0"

theorem ceS4_reachable : Reachable ceS4 := by
  have h0 : Reachable initialState := Relation.ReflTransGen.refl
  have h1 : Reachable ceS1 :=
    h0.tail (Step.selectBank initialState "acc-1" (by decide))
  have h2 : Reachable ceS2 :=
    h1.tail (Step.processTxs ceS1 (fun _ => none) "2024-07-15" [ceRawTx, ceRawTx]
      (by decide))
  have h3 : Reachable ceS3 :=
    h2.tail (Step.selectTx ceS2 ceLunchId (by decide))
  exact h3.tail (Step.bulkPost ceS3 (by decide))

theorem ceS5_reachable : Reachable ceS5 :=
  ceS4_reachable.tail (Step.deleteJournal ceS4 "uuid-0" (by decide))

/-- C2 counterexample: a reachable state in which the transaction id of the
duplicated statement row carries two active reconciliation links — bulk
posting created one link per row, and both rows share the content-derived
id, so the at-most-one-active-link property is violated. -/
theorem C2_counterexample :
    Reachable ceS4 ∧ linkCount ceS4 ceLunchId = 2 :=
  ⟨ceS4_reachable, by decide⟩

/-- C3 counterexample: a reachable state (delete one of the two entries
linked to the duplicated transaction id) in which a statement transaction is
unposted even though an active link with its id still exists, so the
status/link equivalence fails. -/
theorem C3_counterexample :
    Reachable ceS5 ∧ ¬ statusAgrees ceS5 :=
  ⟨ceS5_reachable, by
    intro h
    have htx : (⟨ceLunchId, "2024-01-05", "Lunch", 100, .credit, .unposted, none⟩ : Transaction)
        ∈ ceS5.statementTransactions := by decide
    have := (h _ htx).mpr ⟨⟨ceLunchId, "2024-07", "acc-1", "uuid-3", "2024-01-05", "Lunch", 100, .credit⟩, by decide, rfl⟩
    exact absurd this (by decide)⟩

/-! ## Totals and balance -/

theorem computeTotals_go (lines : List JournalLine) (a b : Amount) :
    lines.foldl (fun acc line => (acc.1 + line.debit, acc.2 + line.credit)) (a, b)
      = (a + (lines.map (fun l => l.debit)).sum, b + (lines.map (fun l => l.credit)).sum) := by
  induction lines generalizing a b with
  | nil => simp
  | cons l ls ih => simp [ih, add_assoc]

theorem computeTotals_eq (lines : List JournalLine) :
    computeTotals lines
      = ((lines.map (fun l => l.debit)).sum, (lines.map (fun l => l.credit)).sum) := by
  unfold computeTotals
  simpa using computeTotals_go lines 0 0

/-- C1: an entry accepted by either save handler (manual journal builder or
AI journal builder) has round-to-2-decimals-equal debit and credit totals, a
strictly positive debit total, and no line with an empty account id; an
entry whose lines are all zero is rejected by both handlers. -/
theorem C1_validateForSave_balance (e : JournalEntry) :
    (((JournalEntryModal.handleSave e).isSome ∨
        (AiJournalEntryModal.handleSave (some e)).isSome) →
      round2 ((e.lines.map (fun l => l.debit)).sum)
          = round2 ((e.lines.map (fun l => l.credit)).sum) ∧
        0 < (e.lines.map (fun l => l.debit)).sum ∧
        ∀ l ∈ e.lines, l.accountId ≠ "") ∧
    ((∀ l ∈ e.lines, l.debit = 0 ∧ l.credit = 0) →
      JournalEntryModal.handleSave e = none ∧
        AiJournalEntryModal.handleSave (some e) = none) := by
  have hsame : AiJournalEntryModal.handleSave (some e) = JournalEntryModal.handleSave e := rfl
  constructor
  · intro hacc
    have hacc2 : (JournalEntryModal.handleSave e).isSome := by
      rcases hacc with h | h
      · exact h
      · rwa [hsame] at h
    unfold JournalEntryModal.handleSave at hacc2
    by_cases hb : isBalanced e
    · by_cases hemp : e.lines.any (fun l => decide (l.accountId = ""))
      · simp [hb, hemp] at hacc2
      · unfold isBalanced at hb
        rw [computeTotals_eq] at hb
        simp only [Bool.and_eq_true, beq_iff_eq, decide_eq_true_eq] at hb
        refine ⟨hb.1, hb.2, ?_⟩
        intro l hl hid
        exact hemp (List.any_eq_true.mpr ⟨l, hl, by simp [hid]⟩)
    · simp [hb] at hacc2
  · intro hzero
    have hs : (e.lines.map (fun l => l.debit)).sum = 0 := by
      apply List.sum_eq_zero
      intro x hx
      simp only [List.mem_map] at hx
      obtain ⟨l, hl, rfl⟩ := hx
      exact (hzero l hl).1
    have hb : isBalanced e = false := by
      unfold isBalanced
      rw [computeTotals_eq]
      simp [hs]
    refine ⟨?_, ?_⟩
    · unfold JournalEntryModal.handleSave
      simp [hb]
    · rw [hsame]
      unfold JournalEntryModal.handleSave
      simp [hb]

/-- The balanced two-line entry of the spec scenario: 500 into the bank,
500 out of suspense. -/
def wBalEntry : JournalEntry :=
  { id := "je-w", date := "2024-07-01", description := "Bank deposit",
    lines := [ { id := "l1", accountId := "acc-1", debit := 0, credit := 500 },
               { id := "l2", accountId := "acc-0", debit := 500, credit := 0 } ] }

theorem wBalEntry_accepted : JournalEntryModal.handleSave wBalEntry = some wBalEntry := by
  have hb : isBalanced wBalEntry = true := by
    simp only [isBalanced, computeTotals, wBalEntry, List.foldl, round2]
    norm_num [Int.floor_eq_iff]
  unfold JournalEntryModal.handleSave
  rw [hb]
  simp [wBalEntry]

/-- C1 witness: the scenario entry is accepted and satisfies the balance
consequences. -/
theorem C1_witness :
    round2 ((wBalEntry.lines.map (fun l => l.debit)).sum)
        = round2 ((wBalEntry.lines.map (fun l => l.credit)).sum) ∧
      0 < (wBalEntry.lines.map (fun l => l.debit)).sum ∧
      ∀ l ∈ wBalEntry.lines, l.accountId ≠ "" :=
  (C1_validateForSave_balance wBalEntry).1 (Or.inl (by rw [wBalEntry_accepted]; rfl))

/-! ## Line updates and the AI line mapping (C6) -/

def c6Prev : JournalEntry :=
  { id := "je-ai", date := "2024-07-01", description := "", lines := [] }

/-- An AI memo suggestion whose first line carries a debit and a credit at
once; the mapping of App.tsx lines 570-575 keeps both amounts. -/
def c6Suggestion : RawAiEntry :=
  { date := some "2024-07-01", description := some "Paid supplies",
    lines := [ { accountId := "acc-4", debit := some 5, credit := some 3 },
               { accountId := "acc-1", debit := none, credit := some 2 } ] }

def c6Result : Option JournalEntry := applyAiMemoResult c6Prev c6Suggestion 0

/-- C6 counterexample: the accepted AI suggestion produces an entry holding
a line whose debit and credit are both nonzero, so debit/credit mutual
exclusivity is not an invariant of all entry lines. -/
theorem C6_counterexample :
    c6Result.isSome = true ∧
      ∃ l ∈ (c6Result.getD c6Prev).lines, l.debit ≠ 0 ∧ l.credit ≠ 0 := by
  decide

/-- C6 amended: after the line editor sets a positive debit the line's
credit is zero, and after it sets a positive credit the line's debit is
zero (the exclusivity is enforced by handleUpdateLine, not globally). -/
theorem C6_amended_update (e : JournalEntry) (lineId : String) (x : Amount)
    (hx : 0 < x) :
    (∀ l ∈ (handleUpdateLine e lineId (.debit x)).lines,
        l.id = lineId → l.debit = x ∧ l.credit = 0) ∧
    (∀ l ∈ (handleUpdateLine e lineId (.credit x)).lines,
        l.id = lineId → l.credit = x ∧ l.debit = 0) := by
  constructor
  · intro l hl hlid
    rw [handleUpdateLine] at hl
    simp only [List.mem_map] at hl
    obtain ⟨l0, hl0, rfl⟩ := hl
    by_cases h : l0.id = lineId
    · simp [h, applyLineUpdate, hx]
    · have hm : (if !decide (l0.id = lineId) then l0
          else applyLineUpdate l0 (.debit x)) = l0 := by simp [h]
      rw [hm] at hlid
      exact absurd hlid h
  · intro l hl hlid
    rw [handleUpdateLine] at hl
    simp only [List.mem_map] at hl
    obtain ⟨l0, hl0, rfl⟩ := hl
    by_cases h : l0.id = lineId
    · simp [h, applyLineUpdate, hx]
    · have hm : (if !decide (l0.id = lineId) then l0
          else applyLineUpdate l0 (.credit x)) = l0 := by simp [h]
      rw [hm] at hlid
      exact absurd hlid h

/-- C6 witness: updating line l1 of the scenario entry with debit 7 zeroes
its credit, and with credit 7 zeroes its debit. -/
theorem C6_witness :
    (∀ l ∈ (handleUpdateLine wBalEntry "l1" (.debit 7)).lines,
        l.id = "l1" → l.debit = 7 ∧ l.credit = 0) ∧
    (∀ l ∈ (handleUpdateLine wBalEntry "l1" (.credit 7)).lines,
        l.id = "l1" → l.credit = 7 ∧ l.debit = 0) :=
  C6_amended_update wBalEntry "l1" 7 (by decide)

/-! ## Account import (C7) -/

/-- The import scenario rows: two rows sharing the code 1000. -/
def c7Rows : List (List Cell) :=
  [ [.str "1000", .str "Cash", .str "Asset"],
    [.str "1000", .str "Cash Dup", .str "Asset"] ]

/-- C7 counterexample: importing the two 1000-coded rows into the default
directory (which has no code 1000) adds both of them — the batch is only
deduplicated against pre-existing codes, so the directory gains two
accounts, not one. -/
theorem C7_counterexample :
    (parseAndImportData DEFAULT_ACCOUNTS 99 c7Rows).2 = 2 ∧
      ((parseAndImportData DEFAULT_ACCOUNTS 99 c7Rows).1.filter
        (fun a => decide (a.code = "1000"))).length = 2 := by
  decide

/-- C7 amended: rows missing any of the three fields are dropped (filtering
the input to its well-formed rows changes nothing), and the import only
appends accounts whose code is absent from the pre-existing directory,
never touching existing accounts; duplicates inside one batch are all
added. -/
theorem C7_amended_import (accounts : List Account) (now : ℕ)
    (data : List (List Cell)) :
    parseAndImportData accounts now data
        = parseAndImportData accounts now (data.filter wellFormedRow) ∧
      ∃ newAccounts,
        (parseAndImportData accounts now data).1 = accounts ++ newAccounts ∧
        ∀ a ∈ newAccounts, ∀ e ∈ accounts, e.code ≠ a.code := by
  constructor
  · have hff : (data.filter wellFormedRow).filter wellFormedRow
        = data.filter wellFormedRow := by
      rw [List.filter_filter]
      simp
    simp only [parseAndImportData, hff]
  · use (((data.filter wellFormedRow).enum).map (fun p =>
        ({ id := "imported-" ++ toString now ++ "-" ++ toString p.1,
           code := jsTrim (cellAt p.2 0).toStr,
           name := jsTrim (cellAt p.2 1).toStr,
           type := jsTrim (cellAt p.2 2).toStr } : Account))).filter
        (fun imp => !accounts.any (fun exist => decide (exist.code = imp.code)))
    refine ⟨by rfl, ?_⟩
    intro a ha e he
    have hmem := (List.mem_filter.mp ha).2
    simp only [Bool.not_eq_true'] at hmem
    intro hc
    have : accounts.any (fun exist => decide (exist.code = a.code)) = true :=
      List.any_eq_true.mpr ⟨e, he, by simp [hc]⟩
    rw [this] at hmem
    exact Bool.true_eq_false.mp hmem

/-- C7 witness: the amended theorem applied to the scenario input. -/
theorem C7_witness :
    parseAndImportData DEFAULT_ACCOUNTS 99 c7Rows
      = parseAndImportData DEFAULT_ACCOUNTS 99 (c7Rows.filter wellFormedRow) :=
  (C7_amended_import DEFAULT_ACCOUNTS 99 c7Rows).1

/-! ## Edit frame (C8) -/

/-- C8: saving an entry whose id already exists replaces exactly the entries
bearing that id in the journal-entry collection and leaves the links, the
statement transactions (and their statuses) and the accounts untouched. -/
theorem C8_edit_frame (s : AppState) (entry : JournalEntry)
    (ltx : Option Transaction)
    (h : ∃ je ∈ s.journalEntries, je.id = entry.id) :
    (handleSaveJournal s entry ltx).journalEntries
        = s.journalEntries.map
            (fun je => if decide (je.id = entry.id) then entry else je) ∧
      (handleSaveJournal s entry ltx).reconciledTransactions
        = s.reconciledTransactions ∧
      (handleSaveJournal s entry ltx).statementTransactions
        = s.statementTransactions ∧
      (handleSaveJournal s entry ltx).accounts = s.accounts := by
  have he : s.journalEntries.any (fun je => decide (je.id = entry.id)) = true := by
    obtain ⟨je, hje, hid⟩ := h
    exact List.any_eq_true.mpr ⟨je, hje, by simp [hid]⟩
  simp only [handleSaveJournal, he, if_true]
  exact ⟨by trivial, by trivial, by trivial, by trivial⟩

/-- C8 witness: editing an entry in a concrete one-entry state. -/
theorem C8_witness :
    (handleSaveJournal { initialState with journalEntries := [wBalEntry] }
          { wBalEntry with description := "Edited" } none).journalEntries
        = [{ wBalEntry with description := "Edited" }] ∧
      (handleSaveJournal { initialState with journalEntries := [wBalEntry] }
          { wBalEntry with description := "Edited" } none).reconciledTransactions
        = [] := by
  have h := C8_edit_frame { initialState with journalEntries := [wBalEntry] }
    { wBalEntry with description := "Edited" } none ⟨wBalEntry, by simp, rfl⟩
  refine ⟨?_, ?_⟩
  · rw [h.1]
    decide
  · exact h.2.1

/-! ## Bulk posting without a suspense account (C9) -/

/-- C9: when no account carries the reserved code 0000 (and the call passes
the initial guard of a nonempty transaction list and a selected bank
account), bulk posting only records the error message; entries, links,
statement transactions and accounts are all left exactly as they were. -/
theorem C9_missing_suspense (s : AppState) (txsToPost : List Transaction)
    (hne : txsToPost ≠ []) (hbank : s.selectedBankAccountId ≠ "")
    (hsusp : ∀ a ∈ s.accounts, a.code ≠ UNCATEGORIZED_CODE) :
    handlePostToCashbook s txsToPost
      = { s with errorMsg := some "Uncategorized suspense account not found!" } := by
  unfold handlePostToCashbook
  have h1 : ¬(txsToPost.length = 0 ∨ s.selectedBankAccountId = "") := by
    push_neg
    exact ⟨by simpa using hne, hbank⟩
  rw [if_neg h1]
  have h2 : s.accounts.find? (fun a => decide (a.code = UNCATEGORIZED_CODE)) = none := by
    apply List.find?_eq_none.mpr
    intro a ha
    simp [hsusp a ha]
  rw [h2]

def c9State : AppState :=
  { initialState with accounts := [], selectedBankAccountId := "acc-1" }

/-- C9 witness: a concrete call with an empty chart of accounts. -/
theorem C9_witness :
    handlePostToCashbook c9State
        [⟨"t1", "2024-07-01", "coffee", 5, .debit, .unposted, none⟩]
      = { c9State with errorMsg := some "Uncategorized suspense account not found!" } :=
  C9_missing_suspense c9State _ (by decide) (by decide) (by decide)

/-! ## Delete cascade (C4) -/

/-- C4: a confirmed delete removes the entry, removes every link whose
journalEntryId is the deleted id (uniformly for zero, one or many links),
and resets exactly the formerly linked transaction ids to unposted, all in
one state transition; accounts are untouched, and an unconfirmed delete
leaves the state fully intact. -/
theorem C4_delete_cascade (s : AppState) (id : String) :
    (handleDeleteJournal s true id).journalEntries
        = s.journalEntries.filter (fun je => !decide (je.id = id)) ∧
      (handleDeleteJournal s true id).reconciledTransactions
        = s.reconciledTransactions.filter (fun rt => !decide (rt.journalEntryId = id)) ∧
      (handleDeleteJournal s true id).statementTransactions
        = s.statementTransactions.map (fun st =>
            if ((s.reconciledTransactions.filter
                  (fun rt => decide (rt.journalEntryId = id))).map
                (fun rt => rt.id)).contains st.id
            then { st with reconciliationStatus := ReconStatus.unposted } else st) ∧
      (handleDeleteJournal s true id).accounts = s.accounts ∧
      handleDeleteJournal s false id = s := by
  by_cases hlen : 0 < (s.reconciledTransactions.filter
      (fun rt => decide (rt.journalEntryId = id))).length
  · unfold handleDeleteJournal
    rw [if_pos rfl, if_pos hlen]
    exact ⟨by trivial, by trivial, by trivial, by trivial, by trivial⟩
  · have hnil : s.reconciledTransactions.filter
        (fun rt => decide (rt.journalEntryId = id)) = [] := by
      rcases Nat.eq_zero_or_pos (s.reconciledTransactions.filter
        (fun rt => decide (rt.journalEntryId = id))).length with h | h
      · exact List.length_eq_zero.mp h
      · exact absurd h hlen
    have hself : s.reconciledTransactions.filter
        (fun rt => !decide (rt.journalEntryId = id)) = s.reconciledTransactions := by
      apply List.filter_eq_self.mpr
      intro rt hrt
      by_contra hc
      have hpr : decide (rt.journalEntryId = id) = true := by
        revert hc
        cases decide (rt.journalEntryId = id) <;> simp
      have : rt ∈ s.reconciledTransactions.filter
          (fun rt => decide (rt.journalEntryId = id)) :=
        List.mem_filter.mpr ⟨hrt, hpr⟩
      rw [hnil] at this
      exact absurd this (List.not_mem_nil rt)
    unfold handleDeleteJournal
    rw [if_pos rfl, if_neg hlen]
    refine ⟨by trivial, by simpa using hself.symm, ?_, by trivial, by trivial⟩
    rw [hnil]
    simp

/-! ## Status agreement preservation (C3) -/

theorem two_le_length_of_two_mem {α : Type} {l : List α} {a b : α}
    (hab : a ≠ b) : a ∈ l → b ∈ l → 2 ≤ l.length := by
  induction l with
  | nil => intro ha; exact absurd ha (List.not_mem_nil a)
  | cons x xs ih =>
    intro ha hb
    rcases List.mem_cons.mp ha with rfl | ha2
    · rcases List.mem_cons.mp hb with h | hb2
      · exact absurd h.symm hab
      · have := List.length_pos_of_mem hb2
        simp only [List.length_cons]
        omega
    · rcases List.mem_cons.mp hb with rfl | hb2
      · have := List.length_pos_of_mem ha2
        simp only [List.length_cons]
        omega
      · have := ih ha2 hb2
        simp only [List.length_cons]
        omega

theorem saveJournal_statusAgrees (s : AppState) (entry : JournalEntry)
    (journalLinkedTx : Option Transaction) (hsa : statusAgrees s) :
    statusAgrees (handleSaveJournal s entry journalLinkedTx) := by
  cases hedit : s.journalEntries.any (fun je => decide (je.id = entry.id)) with
  | true =>
    simp only [handleSaveJournal, hedit, if_true]
    intro st hst
    exact hsa st hst
  | false =>
    cases journalLinkedTx with
    | none =>
      simp only [handleSaveJournal, hedit]
      intro st hst
      exact hsa st hst
    | some tx =>
      cases hany : s.reconciledTransactions.any (fun rt => decide (rt.id = tx.id)) with
      | true =>
        simp only [handleSaveJournal, hedit, hany]
        intro st hst
        exact hsa st hst
      | false =>
        have hstate : handleSaveJournal s entry (some tx)
            = { s with
                journalEntries := s.journalEntries ++ [entry],
                reconciledTransactions := s.reconciledTransactions
                  ++ [mkRecon s.activePeriod s.selectedBankAccountId tx entry.id],
                statementTransactions := s.statementTransactions.map (fun st =>
                  if decide (st.id = tx.id) then { st with reconciliationStatus := .posted }
                  else st) } := by
          simp [handleSaveJournal, hedit, hany]
        rw [hstate]
        intro st' hst'
        simp only [List.mem_map] at hst'
        obtain ⟨st, hst, rfl⟩ := hst'
        by_cases hid : st.id = tx.id
        · simp only [hid, decide_True, if_true]
          constructor
          · intro _
            exact ⟨mkRecon s.activePeriod s.selectedBankAccountId tx entry.id,
              List.mem_append_right _ (List.mem_singleton.mpr rfl), by simp [mkRecon]⟩
          · intro _
            trivial
        · simp only [hid, decide_False, Bool.false_eq_true, if_false]
          constructor
          · intro hp
            obtain ⟨rt, hrt, hrid⟩ := (hsa st hst).mp hp
            exact ⟨rt, List.mem_append_left _ hrt, hrid⟩
          · intro hex
            obtain ⟨rt, hrtm, hrid⟩ := hex
            rcases List.mem_append.mp hrtm with hin | hone
            · exact (hsa st hst).mpr ⟨rt, hin, hrid⟩
            · rw [List.mem_singleton.mp hone] at hrid
              simp only [mkRecon] at hrid
              exact absurd hrid.symm hid

theorem aiSave_statusAgrees (s : AppState) (entry : JournalEntry)
    (sourceTxs : List Transaction) (hsa : statusAgrees s) :
    statusAgrees (handleSaveAiJournal s entry sourceTxs) := by
  intro st' hst'
  simp only [handleSaveAiJournal, List.mem_map] at hst'
  obtain ⟨st, hst, rfl⟩ := hst'
  cases hc : (sourceTxs.map (fun tx => tx.id)).contains st.id with
  | true =>
    simp only [handleSaveAiJournal, hc, if_true]
    constructor
    · intro _
      have hmem : st.id ∈ sourceTxs.map (fun tx => tx.id) := by
        simpa using hc
      obtain ⟨tx, htx, hid⟩ := List.mem_map.mp hmem
      refine ⟨mkRecon s.activePeriod s.selectedBankAccountId tx entry.id, ?_, ?_⟩
      · exact List.mem_append_right _ (List.mem_map.mpr ⟨tx, htx, rfl⟩)
      · simp [mkRecon, hid]
    · intro _
      trivial
  | false =>
    simp only [handleSaveAiJournal, hc, Bool.false_eq_true, if_false]
    constructor
    · intro hp
      obtain ⟨rt, hrt, hrid⟩ := (hsa st hst).mp hp
      exact ⟨rt, List.mem_append_left _ hrt, hrid⟩
    · intro hex
      obtain ⟨rt, hrtm, hrid⟩ := hex
      rcases List.mem_append.mp hrtm with hin | hnew
      · exact (hsa st hst).mpr ⟨rt, hin, hrid⟩
      · exfalso
        obtain ⟨tx, htx, rfl⟩ := List.mem_map.mp hnew
        have hmem : st.id ∈ sourceTxs.map (fun tx => tx.id) := by
          simp only [mkRecon] at hrid
          exact List.mem_map.mpr ⟨tx, htx, hrid⟩
        have hnot : st.id ∉ sourceTxs.map (fun tx => tx.id) := by
          simpa using hc
        exact hnot hmem

theorem bulkPost_statusAgrees (s : AppState) (txsToPost : List Transaction)
    (hsa : statusAgrees s) : statusAgrees (handlePostToCashbook s txsToPost) := by
  unfold handlePostToCashbook
  by_cases hguard : txsToPost.length = 0 ∨ s.selectedBankAccountId = ""
  · rw [if_pos hguard]
    exact hsa
  · rw [if_neg hguard]
    cases hfind : s.accounts.find? (fun a => decide (a.code = UNCATEGORIZED_CODE)) with
    | none =>
      intro st hst
      exact hsa st hst
    | some uncategorizedAccount =>
      intro st' hst'
      simp only [List.mem_map] at hst'
      obtain ⟨st, hst, rfl⟩ := hst'
      cases hc : ((bulkLoop s.selectedBankAccountId uncategorizedAccount.id
          s.activePeriod txsToPost s.uuidCounter).2.1.map
            (fun rt => rt.id)).contains st.id with
      | true =>
        simp only [hc, if_true]
        constructor
        · intro _
          have hmem : st.id ∈ (bulkLoop s.selectedBankAccountId uncategorizedAccount.id
              s.activePeriod txsToPost s.uuidCounter).2.1.map (fun rt => rt.id) := by
            simpa using hc
          obtain ⟨rt, hrt, hid⟩ := List.mem_map.mp hmem
          exact ⟨rt, List.mem_append_right _ hrt, hid⟩
        · intro _
          trivial
      | false =>
        simp only [hc, Bool.false_eq_true, if_false]
        constructor
        · intro hp
          obtain ⟨rt, hrt, hid⟩ := (hsa st hst).mp hp
          exact ⟨rt, List.mem_append_left _ hrt, hid⟩
        · intro hex
          obtain ⟨rt, hrtm, hid⟩ := hex
          rcases List.mem_append.mp hrtm with hin | hnew
          · exact (hsa st hst).mpr ⟨rt, hin, hid⟩
          · exfalso
            have hmem : st.id ∈ (bulkLoop s.selectedBankAccountId uncategorizedAccount.id
                s.activePeriod txsToPost s.uuidCounter).2.1.map (fun rt => rt.id) :=
              List.mem_map.mpr ⟨rt, hnew, hid⟩
            have hnot : st.id ∉ (bulkLoop s.selectedBankAccountId uncategorizedAccount.id
                s.activePeriod txsToPost s.uuidCounter).2.1.map (fun rt => rt.id) := by
              simpa using hc
            exact hnot hmem

theorem status_iff_of_contains (ids : List String) (i : String) :
    ((if ids.contains i then ReconStatus.posted else ReconStatus.unposted)
        = ReconStatus.posted ↔ i ∈ ids) := by
  cases hc : ids.contains i with
  | true =>
    simp only [hc, if_true]
    exact iff_of_true trivial (by simpa using hc)
  | false =>
    simp only [hc, Bool.false_eq_true, if_false]
    constructor
    · intro hp
      exact absurd hp (by decide)
    · intro hmem
      exact absurd hmem (by simpa using hc)

theorem processTxs_statusAgrees (s : AppState)
    (jsDateToIso : String → Option String) (today : String)
    (parsedTxs : List RawTx) :
    statusAgrees (processAndSetTransactions s jsDateToIso today parsedTxs) := by
  intro st' hst'
  simp only [processAndSetTransactions, List.mem_map] at hst'
  obtain ⟨r, hr, rfl⟩ := hst'
  have h := status_iff_of_contains (s.reconciledTransactions.map (fun rt => rt.id))
    ((sanitizeRawTx jsDateToIso today
      (s.reconciledTransactions.map (fun rt => rt.id)) r).id)
  constructor
  · intro hp
    obtain ⟨rt, hrt, hid⟩ := List.mem_map.mp (h.mp hp)
    exact ⟨rt, hrt, hid⟩
  · intro hex
    obtain ⟨rt, hrt, hid⟩ := hex
    exact h.mpr (List.mem_map.mpr ⟨rt, hrt, hid⟩)

theorem delete_statusAgrees (s : AppState) (confirmed : Bool) (id : String)
    (hsa : statusAgrees s) (hcard : linkCardOk s) :
    statusAgrees (handleDeleteJournal s confirmed id) := by
  cases confirmed with
  | false => exact hsa
  | true =>
    by_cases hlen : 0 < (s.reconciledTransactions.filter
        (fun rt => decide (rt.journalEntryId = id))).length
    · have hstate : handleDeleteJournal s true id = { s with
          journalEntries := s.journalEntries.filter (fun je => !decide (je.id = id)),
          reconciledTransactions := s.reconciledTransactions.filter
            (fun rt => !decide (rt.journalEntryId = id)),
          statementTransactions := s.statementTransactions.map (fun st =>
            if ((s.reconciledTransactions.filter
                  (fun rt => decide (rt.journalEntryId = id))).map
                (fun rt => rt.id)).contains st.id
            then { st with reconciliationStatus := ReconStatus.unposted }
            else st) } := by
        unfold handleDeleteJournal
        rw [if_pos rfl, if_pos hlen]
      rw [hstate]
      intro st' hst'
      simp only [List.mem_map] at hst'
      obtain ⟨st, hst, rfl⟩ := hst'
      cases hc : ((s.reconciledTransactions.filter
            (fun rt => decide (rt.journalEntryId = id))).map
          (fun rt => rt.id)).contains st.id with
      | true =>
        simp only [hc, if_true]
        constructor
        · intro hp
          exact absurd hp (by decide)
        · intro hex
          exfalso
          obtain ⟨rt, hrtm, hid2⟩ := hex
          have hrt := List.mem_filter.mp hrtm
          have hmem : st.id ∈ (s.reconciledTransactions.filter
              (fun rt => decide (rt.journalEntryId = id))).map (fun rt => rt.id) := by
            simpa using hc
          obtain ⟨l, hlm, hlid⟩ := List.mem_map.mp hmem
          have hl := List.mem_filter.mp hlm
          have hne : rt ≠ l := by
            intro he
            rw [he] at hrt
            rw [hl.2] at hrt
            exact absurd hrt.2 (by decide)
          have hrt2 : rt ∈ s.reconciledTransactions.filter
              (fun x => decide (x.id = st.id)) :=
            List.mem_filter.mpr ⟨hrt.1, by simp [hid2]⟩
          have hl2 : l ∈ s.reconciledTransactions.filter
              (fun x => decide (x.id = st.id)) :=
            List.mem_filter.mpr ⟨hl.1, by simp [hlid]⟩
          have h2 := two_le_length_of_two_mem hne hrt2 hl2
          have h1 := hcard st.id
          unfold linkCount at h1
          omega
      | false =>
        simp only [hc, Bool.false_eq_true, if_false]
        constructor
        · intro hp
          obtain ⟨rt, hrt, hid2⟩ := (hsa st hst).mp hp
          have hpnot : decide (rt.journalEntryId = id) = false := by
            cases hd : decide (rt.journalEntryId = id) with
            | false => rfl
            | true =>
              exfalso
              have hlmem : rt ∈ s.reconciledTransactions.filter
                  (fun rt => decide (rt.journalEntryId = id)) :=
                List.mem_filter.mpr ⟨hrt, hd⟩
              have hmm : st.id ∈ (s.reconciledTransactions.filter
                  (fun rt => decide (rt.journalEntryId = id))).map (fun rt => rt.id) :=
                List.mem_map.mpr ⟨rt, hlmem, hid2⟩
              have hnot : st.id ∉ (s.reconciledTransactions.filter
                  (fun rt => decide (rt.journalEntryId = id))).map (fun rt => rt.id) := by
                simpa using hc
              exact hnot hmm
          exact ⟨rt, List.mem_filter.mpr ⟨hrt, by simp [hpnot]⟩, hid2⟩
        · intro hex
          obtain ⟨rt, hrtm, hid2⟩ := hex
          exact (hsa st hst).mpr ⟨rt, (List.mem_filter.mp hrtm).1, hid2⟩
    · have hstate : handleDeleteJournal s true id = { s with
          journalEntries := s.journalEntries.filter (fun je => !decide (je.id = id)) } := by
        unfold handleDeleteJournal
        rw [if_pos rfl, if_neg hlen]
      rw [hstate]
      intro st hst
      exact hsa st hst

/-- C2 amended: the single-transaction save path does maintain the
at-most-one-active-link invariant — it creates a link only after checking
that none with the transaction id exists.  (By the counterexample, the AI
multi-transaction save path and bulk posting over duplicate rows do not.) -/
theorem C2_amended_single_save (s : AppState) (entry : JournalEntry)
    (journalLinkedTx : Option Transaction) (hcard : linkCardOk s) :
    linkCardOk (handleSaveJournal s entry journalLinkedTx) := by
  intro tid
  have h := hcard tid
  unfold linkCount at h ⊢
  cases hedit : s.journalEntries.any (fun je => decide (je.id = entry.id)) with
  | true =>
    have hstate : handleSaveJournal s entry journalLinkedTx
        = { s with journalEntries := s.journalEntries.map (fun je => if decide (je.id = entry.id) then entry else je) } := by
      unfold handleSaveJournal
      rw [if_pos hedit]
    rw [hstate]
    exact h
  | false =>
    cases journalLinkedTx with
    | none =>
      have hstate : handleSaveJournal s entry none
          = { s with journalEntries := s.journalEntries ++ [entry] } := by
        unfold handleSaveJournal
        rw [if_neg (by simp [hedit])]
      rw [hstate]
      exact h
    | some tx =>
      cases hany : s.reconciledTransactions.any (fun rt => decide (rt.id = tx.id)) with
      | true =>
        have hstate : handleSaveJournal s entry (some tx)
            = { s with journalEntries := s.journalEntries ++ [entry] } := by
          simp [handleSaveJournal, hedit, hany]
        rw [hstate]
        exact h
      | false =>
        have hstate : handleSaveJournal s entry (some tx)
            = { s with
                journalEntries := s.journalEntries ++ [entry],
                reconciledTransactions := s.reconciledTransactions
                  ++ [mkRecon s.activePeriod s.selectedBankAccountId tx entry.id],
                statementTransactions := s.statementTransactions.map (fun st =>
                  if decide (st.id = tx.id) then { st with reconciliationStatus := .posted }
                  else st) } := by
          simp [handleSaveJournal, hedit, hany]
        rw [hstate]
        simp only [List.filter_append, List.length_append]
        by_cases htid : tx.id = tid
        · have hz : s.reconciledTransactions.filter (fun rt => decide (rt.id = tid)) = [] := by
            apply List.filter_eq_nil_iff.mpr
            intro rt hrt
            simp only [decide_eq_true_eq]
            intro hcde
            have : s.reconciledTransactions.any (fun rt => decide (rt.id = tx.id)) = true :=
              List.any_eq_true.mpr ⟨rt, hrt, by simp [hcde, htid]⟩
            rw [hany] at this
            exact absurd this (by decide)
          rw [hz]
          simp [mkRecon, htid]
        · have hone : (List.filter (fun rt => decide (rt.id = tid))
              [mkRecon s.activePeriod s.selectedBankAccountId tx entry.id]).length = 0 := by
            simp [mkRecon, htid]
          rw [hone]
          simpa using h

/-- C2 witness: the amended preservation applied at the initial state. -/
theorem C2_witness :
    linkCardOk (handleSaveJournal initialState wBalEntry none) :=
  C2_amended_single_save initialState wBalEntry none (fun _ => Nat.zero_le 1)

/-- C3 amended: the status/link equivalence is established by statement
processing and preserved by the manual save, the AI save and bulk posting;
entry deletion preserves it only from states in which every transaction id
carries at most one link — from a reachable duplicate-link state (see the
counterexample) deletion breaks it. -/
theorem C3_amended_status_agreement :
    (∀ s entry journalLinkedTx, statusAgrees s →
      statusAgrees (handleSaveJournal s entry journalLinkedTx)) ∧
    (∀ s entry sourceTxs, statusAgrees s →
      statusAgrees (handleSaveAiJournal s entry sourceTxs)) ∧
    (∀ s txsToPost, statusAgrees s →
      statusAgrees (handlePostToCashbook s txsToPost)) ∧
    (∀ s jsDateToIso today parsedTxs,
      statusAgrees (processAndSetTransactions s jsDateToIso today parsedTxs)) ∧
    (∀ s confirmed id, statusAgrees s → linkCardOk s →
      statusAgrees (handleDeleteJournal s confirmed id)) :=
  ⟨saveJournal_statusAgrees, aiSave_statusAgrees, bulkPost_statusAgrees,
    processTxs_statusAgrees, delete_statusAgrees⟩

/-- C3 witness: the delete conjunct applied at the initial state. -/
theorem C3_witness :
    statusAgrees (handleDeleteJournal initialState true "uuid-0") :=
  C3_amended_status_agreement.2.2.2.2 initialState true "uuid-0"
    (fun tx htx => absurd htx (List.not_mem_nil tx))
    (fun _ => Nat.zero_le 1)

/-! ## Transaction id construction (C10) -/

/-- C10: the sanitized transaction id is exactly the dash-joined
concatenation date-description-amount-type of the sanitized fields, and two
parsed rows with equal sanitized fields receive identical transaction
records (same id, same status), making them indistinguishable to every
id-keyed linking and status operation. -/
theorem C10_id_concatenation :
    (∀ (jsDateToIso : String → Option String) (today : String)
        (reconciledIds : List String) (r : RawTx),
      (sanitizeRawTx jsDateToIso today reconciledIds r).id
        = sanitizeDate jsDateToIso today r.date ++ "-"
            ++ sanitizeDescription r.description ++ "-"
            ++ numToString (sanitizeAmount r) ++ "-" ++ (sanitizeType r).str) ∧
    (∀ (jsDateToIso : String → Option String) (today : String)
        (reconciledIds : List String) (r1 r2 : RawTx),
      sanitizeDate jsDateToIso today r1.date = sanitizeDate jsDateToIso today r2.date →
      sanitizeDescription r1.description = sanitizeDescription r2.description →
      sanitizeAmount r1 = sanitizeAmount r2 →
      sanitizeType r1 = sanitizeType r2 →
      sanitizeRawTx jsDateToIso today reconciledIds r1
        = sanitizeRawTx jsDateToIso today reconciledIds r2) := by
  constructor
  · intro jd td ids r
    rfl
  · intro jd td ids r1 r2 h1 h2 h3 h4
    simp only [sanitizeRawTx]
    rw [h1, h2, h3, h4]

/-- Two raw rows differing in surface form (padded description, explicit
zero debit) that sanitize to the same four fields. -/
def c10Raw1 : RawTx :=
  { date := some "2024-01-05", description := some "Lunch", debit := none,
    credit := some 100 }

def c10Raw2 : RawTx :=
  { date := some "2024-01-05", description := some " Lunch ", debit := some 0,
    credit := some 100 }

/-- C10 witness: the two rows receive identical transaction records. -/
theorem C10_witness :
    sanitizeRawTx (fun _ => none) "2024-07-15" [] c10Raw1
      = sanitizeRawTx (fun _ => none) "2024-07-15" [] c10Raw2 :=
  C10_id_concatenation.2 (fun _ => none) "2024-07-15" [] c10Raw1 c10Raw2
    (by decide) (by decide) (by decide) (by decide)

/-! ## Bulk posting (C5) -/

theorem bulkLoop_all_posted (b u p : String) (l : List Transaction) (c : ℕ)
    (h : ∀ tx ∈ l, tx.reconciliationStatus = .posted) :
    bulkLoop b u p l c = ([], [], c) := by
  induction l generalizing c with
  | nil => rfl
  | cons tx rest ih =>
    unfold bulkLoop
    rw [if_pos (h tx (List.mem_cons_self tx rest))]
    exact ih c (fun t ht => h t (List.mem_cons_of_mem tx ht))

theorem bulkLoop_recon_ids (b u p : String) (l : List Transaction) (c : ℕ) :
    (bulkLoop b u p l c).2.1.map (fun rt => rt.id)
      = (l.filter (fun tx => !decide (tx.reconciliationStatus = .posted))).map
          (fun tx => tx.id) := by
  induction l generalizing c with
  | nil => rfl
  | cons tx rest ih =>
    unfold bulkLoop
    by_cases hp : tx.reconciliationStatus = .posted
    · rw [if_pos hp, List.filter_cons_of_neg (by simp [hp])]
      exact ih c
    · rw [if_neg hp, List.filter_cons_of_pos (by simp [hp])]
      simp only [List.map_cons]
      rw [ih (c + 3)]
      rfl

theorem mkRecon_id (p b : String) (tx : Transaction) (j : String) :
    (mkRecon p b tx j).id = tx.id := rfl

theorem bulkLoop_filter_count (b u p tid : String) (l : List Transaction) (c : ℕ) :
    ((bulkLoop b u p l c).2.1.filter (fun rt => decide (rt.id = tid))).length
      = ((l.filter (fun tx => !decide (tx.reconciliationStatus = .posted))).filter
          (fun tx => decide (tx.id = tid))).length := by
  induction l generalizing c with
  | nil => rfl
  | cons tx rest ih =>
    unfold bulkLoop
    by_cases hp : tx.reconciliationStatus = .posted
    · rw [if_pos hp, List.filter_cons_of_neg (by simp [hp])]
      exact ih c
    · rw [if_neg hp]
      have hrhs : (tx :: rest).filter (fun t => !decide (t.reconciliationStatus = .posted))
          = tx :: rest.filter (fun t => !decide (t.reconciliationStatus = .posted)) :=
        List.filter_cons_of_pos (by simp [hp])
      rw [hrhs]
      by_cases hid : tx.id = tid
      · rw [List.filter_cons_of_pos (by simp [mkRecon_id, hid]),
          List.filter_cons_of_pos (by simp [hid])]
        simp only [List.length_cons]
        rw [ih (c + 3)]
      · rw [List.filter_cons_of_neg (by simp [mkRecon_id, hid]),
          List.filter_cons_of_neg (by simp [hid])]
        exact ih (c + 3)

theorem bulkLoop_lengths (b u p : String) (l : List Transaction) (c : ℕ) :
    (bulkLoop b u p l c).1.length
        = (l.filter (fun tx => !decide (tx.reconciliationStatus = .posted))).length ∧
      (bulkLoop b u p l c).2.1.length
        = (l.filter (fun tx => !decide (tx.reconciliationStatus = .posted))).length := by
  induction l generalizing c with
  | nil => exact ⟨rfl, rfl⟩
  | cons tx rest ih =>
    unfold bulkLoop
    by_cases hp : tx.reconciliationStatus = .posted
    · rw [if_pos hp, List.filter_cons_of_neg (by simp [hp])]
      exact ih c
    · rw [if_neg hp, List.filter_cons_of_pos (by simp [hp])]
      simp only [List.length_cons]
      exact ⟨by rw [(ih (c + 3)).1], by rw [(ih (c + 3)).2]⟩

theorem bulkLoop_recon_entry (b u p : String) (l : List Transaction) (c : ℕ) :
    ∀ rt ∈ (bulkLoop b u p l c).2.1,
      ∃ tx ∈ l, tx.reconciliationStatus ≠ .posted ∧ rt.id = tx.id ∧
        ∃ n, rt.journalEntryId = uuid n ∧
          mkBulkJournal b u n tx ∈ (bulkLoop b u p l c).1 := by
  induction l generalizing c with
  | nil => intro rt hrt; cases hrt
  | cons tx rest ih =>
    intro rt hrt
    unfold bulkLoop at hrt ⊢
    by_cases hp : tx.reconciliationStatus = .posted
    · rw [if_pos hp] at hrt ⊢
      obtain ⟨t2, ht2, h1, h2, n, h3, h4⟩ := ih c rt hrt
      exact ⟨t2, List.mem_cons_of_mem tx ht2, h1, h2, n, h3, h4⟩
    · rw [if_neg hp] at hrt ⊢
      rcases List.mem_cons.mp hrt with rfl | hrt2
      · exact ⟨tx, List.mem_cons_self tx rest, hp, rfl, c, rfl,
          List.mem_cons_self _ _⟩
      · obtain ⟨t2, ht2, h1, h2, n, h3, h4⟩ := ih (c + 3) rt hrt2
        exact ⟨t2, List.mem_cons_of_mem tx ht2, h1, h2, n, h3,
          List.mem_cons_of_mem _ h4⟩

theorem filter_id_length_one {l : List Transaction}
    (hn : (l.map (fun t => t.id)).Nodup) {tx : Transaction} (hm : tx ∈ l) :
    (l.filter (fun y => decide (y.id = tx.id))).length = 1 := by
  induction l with
  | nil => cases hm
  | cons a rest ih =>
    simp only [List.map_cons, List.nodup_cons] at hn
    rcases List.mem_cons.mp hm with rfl | hm2
    · rw [List.filter_cons_of_pos (by simp)]
      have hz : (rest.filter (fun y => decide (y.id = tx.id))).length = 0 := by
        rw [List.length_eq_zero, List.filter_eq_nil_iff]
        intro y hy
        simp only [decide_eq_true_eq]
        intro he
        exact hn.1 (by rw [← he]; exact List.mem_map.mpr ⟨y, hy, rfl⟩)
      simp only [List.length_cons]
      omega
    · have hne2 : ¬ a.id = tx.id := by
        intro he
        exact hn.1 (by rw [he]; exact List.mem_map.mpr ⟨tx, hm2, rfl⟩)
      rw [List.filter_cons_of_neg (by simp [hne2])]
      exact ih hn.2 hm2

/-- C5 amended: over a transaction list with pairwise distinct ids drawn
from the statement (the situation whenever the statement has no duplicated
row), bulk posting creates for each not-yet-posted transaction exactly one
link together with a balanced two-line entry (bank line signed to the
transaction, suspense offset line), silently skips posted transactions with
no error, leaves every given transaction linked exactly once, and a second
bulk post over the rows with the same ids is a no-op. -/
theorem C5_amended_bulk_post (s : AppState) (txsToPost : List Transaction)
    (u : Account)
    (hsusp : s.accounts.find? (fun a => decide (a.code = UNCATEGORIZED_CODE)) = some u)
    (hbank : s.selectedBankAccountId ≠ "") (hne : txsToPost ≠ [])
    (hmem : ∀ tx ∈ txsToPost, tx ∈ s.statementTransactions)
    (hnodup : (txsToPost.map (fun tx => tx.id)).Nodup)
    (hsa : statusAgrees s) (hcard : linkCardOk s) :
    (∀ tx ∈ txsToPost, linkCount (handlePostToCashbook s txsToPost) tx.id = 1) ∧
    (∀ tx ∈ txsToPost, tx.reconciliationStatus ≠ .posted →
      ∃ rt ∈ (handlePostToCashbook s txsToPost).reconciledTransactions,
        rt.id = tx.id ∧
        ∃ je ∈ (handlePostToCashbook s txsToPost).journalEntries,
          je.id = rt.journalEntryId ∧
          je.lines.map (fun ln => (ln.accountId, ln.debit, ln.credit))
            = [(s.selectedBankAccountId,
                if tx.type = .credit then tx.amount else 0,
                if tx.type = .debit then tx.amount else 0),
               (u.id,
                if tx.type = .debit then tx.amount else 0,
                if tx.type = .credit then tx.amount else 0)] ∧
          (je.lines.map (fun ln => ln.debit)).sum
            = (je.lines.map (fun ln => ln.credit)).sum) ∧
    (handlePostToCashbook s txsToPost).journalEntries.length
        = s.journalEntries.length
          + (txsToPost.filter
              (fun tx => !decide (tx.reconciliationStatus = .posted))).length ∧
    (handlePostToCashbook s txsToPost).reconciledTransactions.length
        = s.reconciledTransactions.length
          + (txsToPost.filter
              (fun tx => !decide (tx.reconciliationStatus = .posted))).length ∧
    (handlePostToCashbook s txsToPost).errorMsg = s.errorMsg ∧
    handlePostToCashbook (handlePostToCashbook s txsToPost)
        ((handlePostToCashbook s txsToPost).statementTransactions.filter
          (fun st => (txsToPost.map (fun tx => tx.id)).contains st.id))
      = handlePostToCashbook s txsToPost := by
  have hguard : ¬(txsToPost.length = 0 ∨ s.selectedBankAccountId = "") := by
    push_neg
    exact ⟨by simpa using hne, hbank⟩
  have hstate : handlePostToCashbook s txsToPost = { s with
      journalEntries := s.journalEntries
        ++ (bulkLoop s.selectedBankAccountId u.id s.activePeriod txsToPost s.uuidCounter).1,
      reconciledTransactions := s.reconciledTransactions
        ++ (bulkLoop s.selectedBankAccountId u.id s.activePeriod txsToPost s.uuidCounter).2.1,
      statementTransactions := s.statementTransactions.map (fun st =>
        if ((bulkLoop s.selectedBankAccountId u.id s.activePeriod txsToPost
              s.uuidCounter).2.1.map (fun rt => rt.id)).contains st.id
        then { st with reconciliationStatus := .posted } else st),
      selectedTx := [],
      uuidCounter := (bulkLoop s.selectedBankAccountId u.id s.activePeriod txsToPost
        s.uuidCounter).2.2 } := by
    unfold handlePostToCashbook
    rw [if_neg hguard, hsusp]
  have hinj := List.inj_on_of_nodup_map hnodup
  have hP1 : ∀ tx ∈ s.statementTransactions, tx.reconciliationStatus ≠ .posted →
      s.reconciledTransactions.filter (fun rt => decide (rt.id = tx.id)) = [] := by
    intro tx htx hp
    rw [List.filter_eq_nil_iff]
    intro rt hrt
    simp only [decide_eq_true_eq]
    intro he
    exact hp ((hsa tx htx).mpr ⟨rt, hrt, he⟩)
  have hP2 : ∀ tx ∈ s.statementTransactions, tx.reconciliationStatus = .posted →
      (s.reconciledTransactions.filter (fun rt => decide (rt.id = tx.id))).length = 1 := by
    intro tx htx hp
    obtain ⟨rt, hrt, he⟩ := (hsa tx htx).mp hp
    have h1 : 0 < (s.reconciledTransactions.filter
        (fun rt => decide (rt.id = tx.id))).length :=
      List.length_pos_of_mem (List.mem_filter.mpr ⟨hrt, by simp [he]⟩)
    have h2 := hcard tx.id
    unfold linkCount at h2
    omega
  have hcount : ∀ tx ∈ txsToPost,
      linkCount (handlePostToCashbook s txsToPost) tx.id = 1 := by
    intro tx htx
    rw [hstate]
    unfold linkCount
    simp only [List.filter_append, List.length_append]
    rw [bulkLoop_filter_count]
    by_cases hp : tx.reconciliationStatus = .posted
    · rw [hP2 tx (hmem tx htx) hp]
      have hz : ((txsToPost.filter
          (fun t => !decide (t.reconciliationStatus = .posted))).filter
            (fun t => decide (t.id = tx.id))).length = 0 := by
        rw [List.length_eq_zero, List.filter_eq_nil_iff]
        intro y hy
        simp only [decide_eq_true_eq]
        intro he
        have hy2 := List.mem_filter.mp hy
        have hyx : y = tx := hinj hy2.1 htx he
        rw [hyx] at hy2
        simp [hp] at hy2
      omega
    · rw [hP1 tx (hmem tx htx) hp]
      have hnp : ((txsToPost.filter
          (fun t => !decide (t.reconciliationStatus = .posted))).map
            (fun t => t.id)).Nodup :=
        ((List.filter_sublist txsToPost).map (fun t => t.id)).nodup hnodup
      have hm2 : tx ∈ txsToPost.filter
          (fun t => !decide (t.reconciliationStatus = .posted)) :=
        List.mem_filter.mpr ⟨htx, by simp [hp]⟩
      have hone := filter_id_length_one hnp hm2
      simp only [List.length_nil]
      omega
  have hentry : ∀ tx ∈ txsToPost, tx.reconciliationStatus ≠ .posted →
      ∃ rt ∈ (handlePostToCashbook s txsToPost).reconciledTransactions,
        rt.id = tx.id ∧
        ∃ je ∈ (handlePostToCashbook s txsToPost).journalEntries,
          je.id = rt.journalEntryId ∧
          je.lines.map (fun ln => (ln.accountId, ln.debit, ln.credit))
            = [(s.selectedBankAccountId,
                if tx.type = .credit then tx.amount else 0,
                if tx.type = .debit then tx.amount else 0),
               (u.id,
                if tx.type = .debit then tx.amount else 0,
                if tx.type = .credit then tx.amount else 0)] ∧
          (je.lines.map (fun ln => ln.debit)).sum
            = (je.lines.map (fun ln => ln.credit)).sum := by
    intro tx htx hp
    have hidmem : tx.id ∈ (bulkLoop s.selectedBankAccountId u.id s.activePeriod
        txsToPost s.uuidCounter).2.1.map (fun rt => rt.id) := by
      rw [bulkLoop_recon_ids]
      exact List.mem_map.mpr ⟨tx, List.mem_filter.mpr ⟨htx, by simp [hp]⟩, rfl⟩
    obtain ⟨rt, hrtm, hrid⟩ := List.mem_map.mp hidmem
    obtain ⟨t2, ht2, hnp2, hid2, n, hjid, hjm⟩ :=
      bulkLoop_recon_entry s.selectedBankAccountId u.id s.activePeriod
        txsToPost s.uuidCounter rt hrtm
    have ht2tx : t2 = tx := hinj ht2 htx (by rw [← hid2, hrid])
    subst ht2tx
    refine ⟨rt, ?_, hrid, mkBulkJournal s.selectedBankAccountId u.id n t2, ?_,
      ?_, ?_, ?_⟩
    · rw [hstate]
      exact List.mem_append_right _ hrtm
    · rw [hstate]
      exact List.mem_append_right _ hjm
    · rw [hjid]
      rfl
    · rfl
    · cases ht : t2.type with
      | debit => simp [mkBulkJournal, ht]
      | credit => simp [mkBulkJournal, ht]
  have hlens := bulkLoop_lengths s.selectedBankAccountId u.id s.activePeriod
    txsToPost s.uuidCounter
  refine ⟨hcount, hentry, ?_, ?_, ?_, ?_⟩
  · rw [hstate]
    simp only [List.length_append]
    rw [hlens.1]
  · rw [hstate]
    simp only [List.length_append]
    rw [hlens.2]
  · rw [hstate]
  · set s1 := handlePostToCashbook s txsToPost with hs1
    have hpostedall : ∀ st ∈ s1.statementTransactions.filter
        (fun st => (txsToPost.map (fun tx => tx.id)).contains st.id),
        st.reconciliationStatus = .posted := by
      intro st hstf
      have hcont := (List.mem_filter.mp hstf).2
      have hstm := (List.mem_filter.mp hstf).1
      rw [hstate] at hstm
      simp only [List.mem_map] at hstm
      obtain ⟨st0, hst0, rfl⟩ := hstm
      by_cases hcc : ((bulkLoop s.selectedBankAccountId u.id s.activePeriod
          txsToPost s.uuidCounter).2.1.map (fun rt => rt.id)).contains st0.id = true
      · simp only [hcc, if_true]
      · have hcc2 : ((bulkLoop s.selectedBankAccountId u.id s.activePeriod
            txsToPost s.uuidCounter).2.1.map (fun rt => rt.id)).contains st0.id = false := by
          revert hcc
          cases ((bulkLoop s.selectedBankAccountId u.id s.activePeriod
            txsToPost s.uuidCounter).2.1.map (fun rt => rt.id)).contains st0.id <;> simp
        simp only [hcc2, Bool.false_eq_true, if_false] at hcont ⊢
        have hmm2 : st0.id ∈ txsToPost.map (fun tx => tx.id) := by
          simpa using hcont
        obtain ⟨tx, htx, hideq⟩ := List.mem_map.mp hmm2
        by_cases hp : tx.reconciliationStatus = .posted
        · obtain ⟨rt, hrt, hre⟩ := (hsa tx (hmem tx htx)).mp hp
          exact (hsa st0 hst0).mpr ⟨rt, hrt, by rw [hre]; exact hideq⟩
        · exfalso
          have hin : st0.id ∈ (bulkLoop s.selectedBankAccountId u.id s.activePeriod
              txsToPost s.uuidCounter).2.1.map (fun rt => rt.id) := by
            rw [bulkLoop_recon_ids]
            exact List.mem_map.mpr ⟨tx, List.mem_filter.mpr ⟨htx, by simp [hp]⟩, hideq⟩
          have hnot : st0.id ∉ (bulkLoop s.selectedBankAccountId u.id s.activePeriod
              txsToPost s.uuidCounter).2.1.map (fun rt => rt.id) := by
            simpa using hcc2
          exact hnot hin
    by_cases hlen2 : (s1.statementTransactions.filter
        (fun st => (txsToPost.map (fun tx => tx.id)).contains st.id)).length = 0
    · unfold handlePostToCashbook
      rw [if_pos (Or.inl hlen2)]
    · have hguard2 : ¬((s1.statementTransactions.filter
          (fun st => (txsToPost.map (fun tx => tx.id)).contains st.id)).length = 0
            ∨ s1.selectedBankAccountId = "") := by
        push_neg
        refine ⟨hlen2, ?_⟩
        rw [hstate]
        exact hbank
      have hfind2 : s1.accounts.find? (fun a => decide (a.code = UNCATEGORIZED_CODE))
          = some u := by
        rw [hstate]
        exact hsusp
      have hloop2 : bulkLoop s1.selectedBankAccountId u.id s1.activePeriod
          (s1.statementTransactions.filter
            (fun st => (txsToPost.map (fun tx => tx.id)).contains st.id))
          s1.uuidCounter = ([], [], s1.uuidCounter) :=
        bulkLoop_all_posted _ _ _ _ _ hpostedall
      have hL1 : (bulkLoop s1.selectedBankAccountId u.id s1.activePeriod
          (s1.statementTransactions.filter
            (fun st => (txsToPost.map (fun tx => tx.id)).contains st.id))
          s1.uuidCounter).1 = [] := by
        rw [hloop2]
      have hL2 : (bulkLoop s1.selectedBankAccountId u.id s1.activePeriod
          (s1.statementTransactions.filter
            (fun st => (txsToPost.map (fun tx => tx.id)).contains st.id))
          s1.uuidCounter).2.1 = [] := by
        rw [hloop2]
      have hL3 : (bulkLoop s1.selectedBankAccountId u.id s1.activePeriod
          (s1.statementTransactions.filter
            (fun st => (txsToPost.map (fun tx => tx.id)).contains st.id))
          s1.uuidCounter).2.2 = s1.uuidCounter := by
        rw [hloop2]
      unfold handlePostToCashbook
      rw [if_neg hguard2]
      simp only [hfind2]
      rw [hL1, hL2, hL3]
      have hmapid : s1.statementTransactions.map (fun st =>
          if (([] : List ReconciledTransaction).map (fun rt => rt.id)).contains st.id
          then { st with reconciliationStatus := ReconStatus.posted } else st)
            = s1.statementTransactions := by
        simp
      rw [List.append_nil, List.append_nil, hmapid, hstate]

/-- C5 counterexample: bulk posting the selection over the
duplicated-row statement (both rows unposted, sharing one content-derived
id) creates two entries and two links in a single call, so the transaction
does not end up linked exactly once and the call is not idempotent per
transaction. -/
theorem C5_counterexample :
    linkCount (handlePostToCashbook ceS3
        (ceS3.statementTransactions.filter (fun tx => ceS3.selectedTx.contains tx.id)))
      ceLunchId = 2 ∧
    (handlePostToCashbook ceS3
        (ceS3.statementTransactions.filter (fun tx => ceS3.selectedTx.contains tx.id))).journalEntries.length
      = 2 := by
  decide

/-- Two distinct unposted transactions for the bulk-post witness. -/
def c5Txs : List Transaction :=
  [ { id := "t1", date := "2024-07-01", description := "coffee", amount := 5,
      type := .debit, reconciliationStatus := .unposted },
    { id := "t2", date := "2024-07-02", description := "sale", amount := 7,
      type := .credit, reconciliationStatus := .unposted } ]

def c5State : AppState :=
  { initialState with
    selectedBankAccountId := "acc-1",
    statementTransactions := c5Txs }

def c5Suspense : Account :=
  { id := "acc-0", code := UNCATEGORIZED_CODE, name := "Uncategorized Transactions",
    type := "Suspense" }

/-- C5 witness: the amended bulk-post theorem applied to a concrete
two-transaction statement, evaluated at the first transaction. -/
theorem C5_witness :
    linkCount (handlePostToCashbook c5State c5Txs) "t1" = 1 :=
  (C5_amended_bulk_post c5State c5Txs c5Suspense (by decide) (by decide)
    (by decide) (by decide) (by decide) (by unfold statusAgrees; decide)
    (fun _ => Nat.zero_le 1)).1
    { id := "t1", date := "2024-07-01", description := "coffee", amount := 5,
      type := .debit, reconciliationStatus := .unposted } (by decide)

end MaAnalysis
